import Mathlib

/-!
Shallow embedding of `src/crtk/utils.py` (the `crtk.utils` helper class of the
ros2_crtk_python_client repository).

Time is modelled as exact rational seconds.  A subscription channel is
modelled by the latest cached sample (with its message-header stamp), the
`threading.Event` flag for that channel, and the time-ordered list of the
sample deliveries that will occur after the instant under consideration;
blocking on the event consumes the first delivery that happens within the
timeout.  Python exceptions are modelled as `Except` errors, named after the
specification's error taxonomy: `DataUnavailable` for the
`RuntimeWarning('unable to get ...')` raises of the accessors and
`DuplicateCapability` for the duplicate-registration raises of the `add_*`
methods.
-/

namespace Crtk

/-- Error taxonomy for the exceptions raised by `crtk/utils.py`. -/
inductive CrtkError where
  | DataUnavailable
  | DuplicateCapability
  | CommunicationShutdown
  | IndexError
  | AttributeError
  | TypeError
deriving DecidableEq, Repr

/-- A ROS message together with its `header.stamp`, in seconds. -/
structure Stamped (α : Type) where
  stamp : ℚ
  value : α
deriving DecidableEq, Repr

/-- A subscription channel: the latest cached message (`self.__*_data`), its
`threading.Event` flag (`self.__*_event`), and the future deliveries
`(arrival time, message)` that the subscription callback will store, in
increasing order of arrival time. -/
structure Channel (α : Type) where
  data : Stamped α
  eventSet : Bool
  deliveries : List (ℚ × Stamped α)
deriving DecidableEq, Repr

/-- Semantics of `event.wait(timeout)` on a channel whose callback stores the
message and then sets the event (e.g. `__setpoint_js_cb`, lines 373-375): if
the event is already set the wait returns at once; otherwise the first
delivery within the timeout stores its message, sets the event and wakes the
waiter; otherwise the wait times out. Returns (in_time, wake time, channel
after the wait). -/
def channelWait {α : Type} (ch : Channel α) (now timeout : ℚ) : Bool × ℚ × Channel α :=
  if ch.eventSet then (true, now, ch)
  else
    match ch.deliveries with
    | [] => (false, now + max timeout 0, ch)
    | (ta, m) :: rest =>
      if ta ≤ now + timeout then
        (true, ta, { ch with data := m, eventSet := true, deliveries := rest })
      else (false, now + max timeout 0, ch)

/-- Embedding of `utils.__wait_for_valid_data(data, event, age, wait)`
(lines 161-175): clear the event, default `age` and `wait` to the expected
interval, accept the cached sample if `age ≠ 0` and the sample is at most
`age` old, otherwise block on the event for up to `wait` (when `wait ≠ 0`).
Returns (success, return time, channel after the call). -/
def wait_for_valid_data {α : Type} (expected_interval now : ℚ) (ch : Channel α)
    (age wait : Option ℚ) : Bool × ℚ × Channel α :=
  let ch := { ch with eventSet := false }
  let age := age.getD expected_interval
  let wait := wait.getD expected_interval
  if age ≠ 0 ∧ now - ch.data.stamp ≤ age then (true, now, ch)
  else if wait ≠ 0 then channelWait ch now wait
  else (false, now, ch)

/-- Payload of a `sensor_msgs.msg.JointState` message. -/
structure JointValues where
  position : List ℚ
  velocity : List ℚ
  effort : List ℚ
deriving DecidableEq, Repr

/-- The `sensor_msgs.msg.JointState()` default constructed in
`add_setpoint_js` (line 434): empty vectors, zero stamp. -/
def initJointState : Stamped JointValues := ⟨0, ⟨[], [], []⟩⟩

/-- The setpoint_js channel right after `add_setpoint_js`, before any sample
has been delivered. -/
def initSetpointChannel : Channel JointValues := ⟨initJointState, false, []⟩

/-- Embedding of `utils.__setpoint_jp(age, wait, extra)` (lines 387-404):
run the freshness check and on success return the position vector of the
(possibly just delivered) cached sample, with its stamp when `extra` is set;
on failure raise (`DataUnavailable`). -/
def setpoint_jp (expected_interval now : ℚ) (ch : Channel JointValues)
    (age wait : Option ℚ) (extra : Bool) :
    Except CrtkError (List ℚ × Option ℚ) :=
  match wait_for_valid_data expected_interval now ch age wait with
  | (true, _, ch') =>
    if !extra then .ok (ch'.data.value.position, none)
    else .ok (ch'.data.value.position, some ch'.data.stamp)
  | (false, _, _) => .error .DataUnavailable

/-- Payload of a `geometry_msgs.msg.Pose`. -/
structure Pose where
  px : ℚ
  py : ℚ
  pz : ℚ
  qx : ℚ
  qy : ℚ
  qz : ℚ
  qw : ℚ
deriving DecidableEq, Repr

/-- A `PyKDL.Frame`: a rotation quaternion and a translation vector. -/
structure Frame where
  rotation : ℚ × ℚ × ℚ × ℚ
  position : ℚ × ℚ × ℚ
deriving DecidableEq, Repr

/-- Embedding of `FrameFromPoseMsg` (lines 54-69). -/
def FrameFromPoseMsg (p : Pose) : Frame :=
  { rotation := (p.qx, p.qy, p.qz, p.qw), position := (p.px, p.py, p.pz) }

/-- Embedding of `utils.__measured_cp(age, wait, extra)` (lines 560-569).
The freshness check runs on the measured-pose channel, but the returned pose
is converted from `self.__setpoint_cp_data.pose` — the setpoint-pose cache —
exactly as the source does on lines 565 and 567 (only the `extra` timestamp
comes from the measured cache). `setpointData` is the current value of
`self.__setpoint_cp_data`. -/
def measured_cp (expected_interval now : ℚ) (measuredCh : Channel Pose)
    (setpointData : Stamped Pose) (age wait : Option ℚ) (extra : Bool) :
    Except CrtkError (Frame × Option ℚ) :=
  match wait_for_valid_data expected_interval now measuredCh age wait with
  | (true, _, mCh') =>
    if !extra then .ok (FrameFromPoseMsg setpointData.value, none)
    else .ok (FrameFromPoseMsg setpointData.value, some mCh'.data.stamp)
  | (false, _, _) => .error .DataUnavailable

/-- Unfolding equation for `wait_for_valid_data`. -/
lemma wait_for_valid_data_eq {α : Type} (ei now : ℚ) (ch : Channel α)
    (age wait : Option ℚ) :
    wait_for_valid_data ei now ch age wait =
      (if age.getD ei ≠ 0 ∧ now - ch.data.stamp ≤ age.getD ei then
        (true, now, { ch with eventSet := false })
      else if wait.getD ei ≠ 0 then
        channelWait { ch with eventSet := false } now (wait.getD ei)
      else (false, now, { ch with eventSet := false })) := rfl

/-- Claim C1: the freshness protocol of `wait_for_valid_data`, with `age` and
`wait` defaulting to the expected update interval when omitted: a cache hit
(`age ≠ 0` and cached-sample age ≤ `age`) returns the cached sample at once
without blocking; on a cache miss with `wait ≠ 0` the call blocks for at most
`wait` and succeeds exactly when a new sample is delivered in time; with
`age = 0` and `wait = 0` it fails immediately; and every failure surfaces as
`DataUnavailable` through the accessors (shown for `setpoint_jp` and
`measured_cp`). -/
theorem wait_for_valid_data_freshness {α : Type} (ei now : ℚ) (ch : Channel α)
    (age wait : Option ℚ)
    (hsorted : (ch.deliveries.map Prod.fst).Pairwise (· ≤ ·))
    (hW : 0 ≤ wait.getD ei) :
    (age.getD ei ≠ 0 → now - ch.data.stamp ≤ age.getD ei →
       wait_for_valid_data ei now ch age wait = (true, now, { ch with eventSet := false })) ∧
    (¬ (age.getD ei ≠ 0 ∧ now - ch.data.stamp ≤ age.getD ei) → wait.getD ei ≠ 0 →
       ((wait_for_valid_data ei now ch age wait).1 = true ↔
         ∃ d ∈ ch.deliveries, d.1 ≤ now + wait.getD ei)) ∧
    ((wait_for_valid_data ei now ch age wait).2.1 ≤ now + wait.getD ei) ∧
    (age.getD ei = 0 → wait.getD ei = 0 →
       wait_for_valid_data ei now ch age wait = (false, now, { ch with eventSet := false })) ∧
    (∀ (chJ : Channel JointValues) (extra : Bool),
       (wait_for_valid_data ei now chJ age wait).1 = false →
       setpoint_jp ei now chJ age wait extra = .error .DataUnavailable) ∧
    (∀ (chP : Channel Pose) (sp : Stamped Pose) (extra : Bool),
       (wait_for_valid_data ei now chP age wait).1 = false →
       measured_cp ei now chP sp age wait extra = .error .DataUnavailable) := by
  obtain ⟨⟨st, v⟩, ev, dl⟩ := ch
  refine ⟨?_, ?_, ?_, ?_, ?_, ?_⟩
  · intro hA hage
    rw [wait_for_valid_data_eq, if_pos (And.intro hA hage)]
  · intro hmiss hW0
    rw [wait_for_valid_data_eq, if_neg hmiss, if_pos hW0]
    constructor
    · intro hsucc
      cases dl with
      | nil => simp [channelWait] at hsucc
      | cons hd tl =>
        obtain ⟨ta, m⟩ := hd
        by_cases hta : ta ≤ now + wait.getD ei
        · exact ⟨(ta, m), List.mem_cons_self _ _, hta⟩
        · simp [channelWait, hta] at hsucc
    · rintro ⟨d, hd, hdle⟩
      cases dl with
      | nil => cases hd
      | cons hd' tl =>
        obtain ⟨ta, m⟩ := hd'
        have hta : ta ≤ now + wait.getD ei := by
          rcases List.mem_cons.mp hd with h | h
          · rw [h] at hdle; exact hdle
          · have hle : ta ≤ d.1 :=
              List.rel_of_pairwise_cons hsorted (List.mem_map.mpr ⟨d, h, rfl⟩)
            exact le_trans hle hdle
        simp [channelWait, hta]
  · rw [wait_for_valid_data_eq]
    split_ifs with h1 h2
    · show now ≤ now + wait.getD ei
      linarith
    · cases dl with
      | nil =>
        show now + max (wait.getD ei) 0 ≤ now + wait.getD ei
        rw [max_eq_left hW]
      | cons hd tl =>
        obtain ⟨ta, m⟩ := hd
        by_cases hta : ta ≤ now + wait.getD ei
        · simp [channelWait, hta]
        · simp only [channelWait, Bool.false_eq_true, if_false, if_neg hta]
          show now + max (wait.getD ei) 0 ≤ now + wait.getD ei
          rw [max_eq_left hW]
    · show now ≤ now + wait.getD ei
      linarith
  · intro hA0 hW0
    rw [wait_for_valid_data_eq, if_neg (by simp [hA0]), if_neg (fun h => h hW0)]
  · intro chJ extra hfail
    rcases hres : wait_for_valid_data ei now chJ age wait with ⟨b, t, ch'⟩
    rw [hres] at hfail
    unfold setpoint_jp
    rw [hres]
    cases b
    · rfl
    · simp at hfail
  · intro chP sp extra hfail
    rcases hres : wait_for_valid_data ei now chP age wait with ⟨b, t, ch'⟩
    rw [hres] at hfail
    unfold measured_cp
    rw [hres]
    cases b
    · rfl
    · simp at hfail

/-- Witness for claim C1: concrete cache-hit, blocking-success and degenerate
instances of the freshness protocol. -/
theorem wait_for_valid_data_freshness_witness :
    wait_for_valid_data (1 : ℚ) 10
        (⟨⟨9, ⟨[1], [2], [3]⟩⟩, true, []⟩ : Channel JointValues) none none =
      (true, 10, (⟨⟨9, ⟨[1], [2], [3]⟩⟩, false, []⟩ : Channel JointValues)) ∧
    (wait_for_valid_data (1 : ℚ) 10
      (⟨⟨0, ⟨[], [], []⟩⟩, false, [(11, ⟨11, ⟨[5], [], []⟩⟩)]⟩ : Channel JointValues)
      none (some 2)).1 = true ∧
    setpoint_jp (1 : ℚ) 10 ⟨⟨0, ⟨[], [], []⟩⟩, false, []⟩ (some 0) (some 0) false =
      .error .DataUnavailable := by
  refine ⟨?_, ?_, ?_⟩
  · exact (wait_for_valid_data_freshness 1 10
      (⟨⟨9, ⟨[1], [2], [3]⟩⟩, true, []⟩ : Channel JointValues) none none
      (by simp) (by norm_num)).1 (by norm_num) (by norm_num)
  · refine ((wait_for_valid_data_freshness 1 10
      (⟨⟨0, ⟨[], [], []⟩⟩, false, [(11, ⟨11, ⟨[5], [], []⟩⟩)]⟩ : Channel JointValues)
      none (some 2) (by simp) (by norm_num)).2.1 (by norm_num) (by norm_num)).mpr ?_
    exact ⟨((11 : ℚ), (⟨11, ⟨[5], [], []⟩⟩ : Stamped JointValues)), by simp, by norm_num⟩
  · refine (wait_for_valid_data_freshness 1 10
      (⟨⟨0, ⟨[], [], []⟩⟩, false, []⟩ : Channel JointValues) (some 0) (some 0)
      (by simp) (by norm_num)).2.2.2.2.1
      (⟨⟨0, ⟨[], [], []⟩⟩, false, []⟩ : Channel JointValues) false ?_
    rw [wait_for_valid_data_eq]
    norm_num

/-- Claim C10: `wait_for_valid_data` clears the channel event at entry,
before evaluating the cache, so its outcome is independent of the event flag
left by deliveries that preceded the query, and a blocking-phase success can
only come from a delivery that arrives after the query began (and within the
wait budget). -/
theorem wait_for_valid_data_clears_event_first {α : Type} (ei now : ℚ)
    (ch : Channel α) (age wait : Option ℚ)
    (hfut : ∀ d ∈ ch.deliveries, now < d.1) :
    (∀ e₁ e₂ : Bool,
       wait_for_valid_data ei now { ch with eventSet := e₁ } age wait =
       wait_for_valid_data ei now { ch with eventSet := e₂ } age wait) ∧
    (¬ (age.getD ei ≠ 0 ∧ now - ch.data.stamp ≤ age.getD ei) →
       (wait_for_valid_data ei now ch age wait).1 = true →
       ∃ d ∈ ch.deliveries, now < d.1 ∧ d.1 ≤ now + wait.getD ei) := by
  obtain ⟨⟨st, v⟩, ev, dl⟩ := ch
  constructor
  · intro e₁ e₂; rfl
  · intro hmiss hsucc
    rw [wait_for_valid_data_eq] at hsucc
    simp only [if_neg hmiss] at hsucc
    by_cases hW0 : wait.getD ei ≠ 0
    · rw [if_pos hW0] at hsucc
      cases dl with
      | nil => simp [channelWait] at hsucc
      | cons hd tl =>
        obtain ⟨ta, m⟩ := hd
        by_cases hta : ta ≤ now + wait.getD ei
        · exact ⟨(ta, m), List.mem_cons_self _ _,
            hfut (ta, m) (List.mem_cons_self _ _), hta⟩
        · simp [channelWait, hta] at hsucc
    · rw [if_neg hW0] at hsucc
      cases hsucc

/-- Witness for claim C10: a stale event flag set before the query does not
change the outcome, and the blocking success comes from the post-entry
delivery. -/
theorem wait_for_valid_data_clears_event_first_witness :
    (wait_for_valid_data (1 : ℚ) 0
        (⟨⟨-100, ⟨[], [], []⟩⟩, true, [(1/2, ⟨1/2, ⟨[7], [], []⟩⟩)]⟩ : Channel JointValues)
        none none =
     wait_for_valid_data (1 : ℚ) 0
        ⟨⟨-100, ⟨[], [], []⟩⟩, false, [(1/2, ⟨1/2, ⟨[7], [], []⟩⟩)]⟩ none none) ∧
    (∃ d ∈ ([(1/2, ⟨1/2, ⟨[7], [], []⟩⟩)] : List (ℚ × Stamped JointValues)),
       (0 : ℚ) < d.1 ∧ d.1 ≤ 0 + (1 : ℚ)) := by
  have h := wait_for_valid_data_clears_event_first (α := JointValues) 1 0
    ⟨⟨-100, ⟨[], [], []⟩⟩, false, [(1/2, ⟨1/2, ⟨[7], [], []⟩⟩)]⟩ none none
    (by intro d hd; simp at hd; rw [hd]; norm_num)
  refine ⟨h.1 true false, h.2 (by norm_num) ?_⟩
  rw [wait_for_valid_data_eq]
  norm_num [channelWait]

/-- Concrete measured pose used to exhibit the `__measured_cp` cache mix-up. -/
def poseMeasured : Pose := ⟨1, 2, 3, 0, 0, 0, 1⟩

/-- Concrete setpoint pose distinct from `poseMeasured`. -/
def poseSetpoint : Pose := ⟨4, 5, 6, 0, 0, 0, 1⟩

/-- A measured-pose channel holding a perfectly fresh sample of
`poseMeasured`. -/
def measuredChFresh : Channel Pose := ⟨⟨10, poseMeasured⟩, false, []⟩

/-- Claim C2 (code bug): even when its freshness check succeeds on the
measured-pose channel, `measured_cp` returns the pose converted from the
setpoint-pose cache (`self.__setpoint_cp_data.pose`, line 565), not the
measured channel's own fresh sample. -/
theorem measured_cp_reads_setpoint_cache :
    measured_cp 1 10 measuredChFresh ⟨0, poseSetpoint⟩ none none false =
      .ok (FrameFromPoseMsg poseSetpoint, none) ∧
    FrameFromPoseMsg poseSetpoint ≠ FrameFromPoseMsg poseMeasured := by
  have h : wait_for_valid_data 1 10 measuredChFresh none none =
      (true, 10, { measuredChFresh with eventSet := false }) := by
    rw [wait_for_valid_data_eq, if_pos ?_]
    constructor
    · norm_num
    · show (10 : ℚ) - measuredChFresh.data.stamp ≤ _
      norm_num [measuredChFresh]
  constructor
  · unfold measured_cp
    rw [h]
    rfl
  · norm_num [FrameFromPoseMsg, poseMeasured, poseSetpoint, Frame.mk.injEq,
      Prod.ext_iff]

/-- The `crtk_msgs.msg.OperatingState` record: `state`, `is_homed`,
`is_busy` and the header stamp in seconds. -/
structure OSRecord where
  state : String
  is_homed : Bool
  is_busy : Bool
  stamp : ℚ
deriving DecidableEq, Repr

/-- The default-constructed `crtk_msgs.msg.OperatingState()` stored by
`add_operating_state` (line 342) before any sample arrives: empty state
string, flags false, zero stamp. -/
def initOperatingState : OSRecord :=
  { state := "", is_homed := false, is_busy := false, stamp := 0 }

/-- Embedding of `utils.__operating_state(extra)` (lines 185-190): returns
the cached record's state (with its stamp when `extra` is set).  The source
performs no freshness or first-sample check, so the result is always `.ok`. -/
def operating_state (rec : OSRecord) (extra : Bool) :
    Except CrtkError (String × Option ℚ) :=
  if !extra then .ok (rec.state, none)
  else .ok (rec.state, some rec.stamp)

/-- A `std_msgs.msg.Float64MultiArray`: the sizes of `layout.dim` and the
flat data. -/
structure Float64MultiArray where
  dimSizes : List Nat
  data : List ℚ
deriving DecidableEq, Repr

/-- The default-constructed `std_msgs.msg.Float64MultiArray()` stored by
`add_jacobian` (line 673): no dimensions, no data. -/
def initJacobianData : Float64MultiArray := ⟨[], []⟩

/-- Embedding of `utils.__jacobian()` (lines 662-665): reshape the flat data
using `layout.dim[0].size` and `layout.dim[1].size`; indexing an absent
dimension raises `IndexError`. -/
def jacobian (j : Float64MultiArray) : Except CrtkError (Nat × Nat × List ℚ) :=
  match j.dimSizes with
  | d0 :: d1 :: _ => .ok (d0, d1, j.data)
  | _ => .error .IndexError

/-- Claim C6 is false as stated: `operating_state()` invoked before the first
sample has been delivered returns the default-constructed record's state
(the empty string) instead of failing with `DataUnavailable`. -/
theorem operating_state_returns_default_before_first_sample :
    operating_state initOperatingState false = .ok ("", none) ∧
    operating_state initOperatingState false ≠ .error .DataUnavailable := by
  exact ⟨rfl, by simp [operating_state]⟩

/-- Claim C6 (amended): freshness-guarded queries invoked before the first
sample fail with `DataUnavailable` when the sentinel stamp is older than the
age tolerance (and no sample arrives, the wait budget being finite), but
`operating_state()` returns the sentinel record's default fields without
failing, and `jacobian()` fails with an index error rather than
`DataUnavailable`. -/
theorem queries_before_first_sample (ei now : ℚ) (age wait : Option ℚ)
    (extra : Bool) (hstale : age.getD ei < now) :
    setpoint_jp ei now initSetpointChannel age wait extra = .error .DataUnavailable ∧
    operating_state initOperatingState extra = .ok ("", if extra then some 0 else none) ∧
    jacobian initJacobianData = .error .IndexError := by
  refine ⟨?_, ?_, ?_⟩
  · have hmiss : ¬ (age.getD ei ≠ 0 ∧
        now - (initSetpointChannel).data.stamp ≤ age.getD ei) := by
      rintro ⟨-, h⟩
      simp only [initSetpointChannel, initJointState] at h
      linarith
    unfold setpoint_jp
    rw [wait_for_valid_data_eq]
    simp only [if_neg hmiss]
    by_cases hW0 : wait.getD ei ≠ 0
    · simp [hW0, channelWait, initSetpointChannel, initJointState]
    · simp [hW0]
  · cases extra <;> rfl
  · rfl

/-- Witness for the amended claim C6, at one second after startup with the
default 0.02 s expected interval. -/
theorem queries_before_first_sample_witness :
    setpoint_jp (1/50 : ℚ) 1 initSetpointChannel none none false =
      .error .DataUnavailable ∧
    operating_state initOperatingState false = .ok ("", none) ∧
    jacobian initJacobianData = .error .IndexError := by
  simpa using queries_before_first_sample (1/50) 1 none none false (by norm_num)

/-- State of the operating-state machinery: the cached record
(`self.__operating_state_data`), the shared event
(`self.__operating_state_event`), the future operating-state deliveries in
increasing arrival order, and the instant (if any) at which the transport
signals shutdown (`rclpy` shutdown, which runs `__ros_shutdown` and sets the
operating-state event). -/
structure OSState where
  record : OSRecord
  eventSet : Bool
  deliveries : List (ℚ × OSRecord)
  shutdown : Option ℚ
deriving DecidableEq, Repr

/-- The `rclpy.ok()` check as observed at time `t`: false once the shutdown
instant has passed. -/
def okAt (s : OSState) (t : ℚ) : Bool :=
  match s.shutdown with
  | none => true
  | some ts => decide (t < ts)

/-- Semantics of `self.__operating_state_event.wait(timeout)`: an already-set
event returns at once; otherwise the wait is woken either by the shutdown
hook `__ros_shutdown` (which sets the event, leaving the record unchanged) or
by the next delivery (whose callback `__operating_state_cb` stores the record
and sets the event), whichever comes first within the timeout; otherwise it
times out. Returns (in_time, wake time, state after the wait). -/
def osWait (s : OSState) (now timeout : ℚ) : Bool × ℚ × OSState :=
  if s.eventSet then (true, now, s)
  else
    let deadline := now + max timeout 0
    match s.deliveries, s.shutdown with
    | [], none => (false, deadline, s)
    | [], some ts =>
      if now ≤ ts ∧ ts ≤ deadline then (true, ts, { s with eventSet := true })
      else (false, deadline, s)
    | (ta, r) :: rest, none =>
      if ta ≤ deadline then
        (true, ta, { s with record := r, eventSet := true, deliveries := rest })
      else (false, deadline, s)
    | (ta, r) :: rest, some ts =>
      if now ≤ ts ∧ ts ≤ deadline ∧ ts < ta then (true, ts, { s with eventSet := true })
      else if ta ≤ deadline then
        (true, ta, { s with record := r, eventSet := true, deliveries := rest })
      else (false, deadline, s)

/-- Fuel-indexed embedding of `utils.__wait_for_operating_state(expected_state,
timeout)` (lines 192-210): fail on a negative timeout; wait on the shared
event; fail if `rclpy.ok()` is false; on a wakeup within the timeout succeed
when the record's state matches, otherwise clear the event and retry with
`timeout - elapsed`; fail on a wait timeout. The fuel only bounds the retry
depth; `wait_for_operating_state` supplies enough fuel for every wakeup the
trace can produce.  Returns (result, return time). -/
def wfosAux (expected : String) : Nat → OSState → ℚ → ℚ → Bool × ℚ
  | 0, _, now, _ => (false, now)
  | fuel + 1, s, now, timeout =>
    if timeout < 0 then (false, now)
    else
      let w := osWait s now timeout
      let t := w.2.1
      let s' := w.2.2
      if ¬ okAt s t then (false, t)
      else if w.1 then
        if s'.record.state = expected then (true, t)
        else wfosAux expected fuel { s' with eventSet := false } t (timeout - (t - now))
      else (false, t)

/-- Embedding of `utils.__wait_for_operating_state` with adequate fuel. -/
def wait_for_operating_state (expected : String) (s : OSState) (now timeout : ℚ) :
    Bool × ℚ :=
  wfosAux expected (s.deliveries.length + 2) s now timeout

/-- The stamp comparison on line 314,
`self.__operating_state_data.header.stamp > start_time`: `header.stamp` is a
`builtin_interfaces.msg.Time` message, which defines no ordering, and
`start_time` is an `rclpy.time.Time`, whose comparison operators accept only
other `rclpy.time.Time` values — contrast line 293 (`__is_busy`), which first
converts the stamp with `rclpy.time.Time.from_msg`.  Evaluating the
comparison therefore raises `TypeError`, whatever the two instants are. -/
def stampGtTime (_stamp _start_time : ℚ) : Except CrtkError Bool :=
  .error .TypeError

/-- Fuel-indexed embedding of `utils.__wait_for_busy(is_busy, start_time,
timeout)` (lines 301-334): fail on a negative timeout; default `start_time`
to now; if `start_time` is in the future, evaluate the fast-path guard of
lines 314-316 — whose stamp comparison (`stampGtTime`) raises `TypeError`,
so this branch in fact always raises — returning success at once when the
guard holds and falling through otherwise; in the fall-through and the
past-`start_time` cases, clear the event, wait on it, fail if `rclpy.ok()`
is false, succeed on a wakeup whose record has the expected busy flag (with
no timestamp check), retry with `timeout - elapsed` otherwise, and fail on a
wait timeout. -/
def wfbAux (busy : Bool) : Nat → OSState → ℚ → Option ℚ → ℚ →
    Except CrtkError (Bool × ℚ)
  | 0, _, now, _, _ => .ok (false, now)
  | fuel + 1, s, now, start_time, timeout =>
    if timeout < 0 then .ok (false, now)
    else
      let st := start_time.getD now
      let fast : Option (Except CrtkError (Bool × ℚ)) :=
        if st > now then
          match stampGtTime s.record.stamp st with
          | .error e => some (.error e)
          | .ok stampAfter =>
            if stampAfter ∧ s.record.is_busy = busy then some (.ok (true, now))
            else none
        else none
      match fast with
      | some r => r
      | none =>
        let s₀ : OSState := { s with eventSet := false }
        let w := osWait s₀ now timeout
        let t := w.2.1
        let s' := w.2.2
        if ¬ okAt s₀ t then .ok (false, t)
        else if w.1 then
          if s'.record.is_busy = busy then .ok (true, t)
          else wfbAux busy fuel s' t (some st) (timeout - (t - now))
        else .ok (false, t)

/-- Embedding of `utils.__wait_for_busy` with adequate fuel. -/
def wait_for_busy (s : OSState) (now : ℚ) (busy : Bool) (start_time : Option ℚ)
    (timeout : ℚ) : Except CrtkError (Bool × ℚ) :=
  wfbAux busy (s.deliveries.length + 1) s now start_time timeout

/-- Embedding of `utils.__state_command(state)` (lines 212-219): clear the
shared event, then publish the command token.  Returns the updated state and
the published tokens. -/
def state_command (s : OSState) (token : String) : OSState × List String :=
  ({ s with eventSet := false }, [token])

/-- Embedding of `utils.__is_enabled` (lines 221-222). -/
def is_enabled (s : OSState) : Bool := s.record.state = "ENABLED"

/-- Embedding of `utils.__is_disabled` (lines 232-233). -/
def is_disabled (s : OSState) : Bool := s.record.state = "DISABLED"

/-- Embedding of `utils.__enable(timeout)` (lines 224-230): if already
enabled, issue the command and return success at once; otherwise clear the
event, issue the command and block via `wait_for_operating_state`.  Returns
(result, return time, published tokens). -/
def enable (s : OSState) (now timeout : ℚ) : Bool × ℚ × List String :=
  if is_enabled s then
    let p := state_command s "enable"
    (true, now, p.2)
  else
    let s₁ : OSState := { s with eventSet := false }
    let p := state_command s₁ "enable"
    let r := wait_for_operating_state "ENABLED" p.1 now timeout
    (r.1, r.2, p.2)

/-- Embedding of `utils.__disable(timeout)` (lines 235-241). -/
def disable (s : OSState) (now timeout : ℚ) : Bool × ℚ × List String :=
  if is_disabled s then
    let p := state_command s "disable"
    (true, now, p.2)
  else
    let s₁ : OSState := { s with eventSet := false }
    let p := state_command s₁ "disable"
    let r := wait_for_operating_state "DISABLED" p.1 now timeout
    (r.1, r.2, p.2)

/-- The events owned by a `utils` instance as far as the shutdown hook is
concerned: whether `add_operating_state` has run (so that
`_utils__operating_state_event` exists), the operating-state event flag, and
the event flag of one telemetry channel (e.g. `setpoint_js`). -/
structure World where
  osRegistered : Bool
  osEventSet : Bool
  channelEventSet : Bool
deriving DecidableEq, Repr

/-- Embedding of `utils.__ros_shutdown` (lines 141-143): when the
operating-state event exists, set it; telemetry channel events are not
touched. -/
def ros_shutdown (w : World) : World :=
  if w.osRegistered then { w with osEventSet := true } else w

/-- Claim C8: for any timeout, `enable` called while the cached power state
is already ENABLED (and symmetrically `disable` while DISABLED) still
publishes the corresponding command token and returns success at the call
instant, without blocking. -/
theorem enable_disable_short_circuit (s₁ s₂ : OSState)
    (now₁ now₂ timeout₁ timeout₂ : ℚ)
    (h₁ : is_enabled s₁ = true) (h₂ : is_disabled s₂ = true) :
    enable s₁ now₁ timeout₁ = (true, now₁, ["enable"]) ∧
    disable s₂ now₂ timeout₂ = (true, now₂, ["disable"]) := by
  constructor
  · unfold enable
    rw [if_pos h₁]
    rfl
  · unfold disable
    rw [if_pos h₂]
    rfl

/-- Witness for claim C8 on concrete already-enabled and already-disabled
states. -/
theorem enable_disable_short_circuit_witness :
    enable ⟨⟨"ENABLED", true, false, 2⟩, false, [], none⟩ 7 30 =
      (true, 7, ["enable"]) ∧
    disable ⟨⟨"DISABLED", false, false, 2⟩, true, [], none⟩ 8 0 =
      (true, 8, ["disable"]) :=
  enable_disable_short_circuit
    ⟨⟨"ENABLED", true, false, 2⟩, false, [], none⟩
    ⟨⟨"DISABLED", false, false, 2⟩, true, [], none⟩
    7 8 30 0 (by decide) (by decide)

/-- Helper for claim C4: with the event initially clear, no shutdown, and a
trace of spurious (non-matching) deliveries followed by a matching record at
`tF` within `now + timeout`, the retry loop of `wfosAux` returns success
exactly at `tF`, for any sufficient fuel. -/
lemma wfosAux_spurious_trace (expected : String) (rM : OSRecord)
    (hM : rM.state = expected) :
    ∀ (spurious : List (ℚ × OSRecord)) (fuel : Nat) (r0 : OSRecord)
      (now timeout tF : ℚ),
      spurious.length + 1 ≤ fuel →
      (∀ p ∈ spurious, p.2.state ≠ expected) →
      (now :: (spurious.map Prod.fst ++ [tF])).Pairwise (· < ·) →
      tF ≤ now + timeout →
      wfosAux expected fuel ⟨r0, false, spurious ++ [(tF, rM)], none⟩ now timeout =
        (true, tF) := by
  intro spurious
  induction spurious with
  | nil =>
    intro fuel r0 now timeout tF hfuel hsp hpw hdl
    obtain ⟨f, rfl⟩ : ∃ f, fuel = f + 1 := ⟨fuel - 1, by omega⟩
    have hnowtF : now < tF := List.rel_of_pairwise_cons hpw (by simp)
    have htpos : ¬ (timeout < 0) := by intro h; linarith
    have hmax : max timeout 0 = timeout := max_eq_left (by linarith)
    have hosw : osWait ⟨r0, false, [(tF, rM)], none⟩ now timeout =
        (true, tF, ⟨rM, true, [], none⟩) := by
      simp [osWait, hmax, hdl]
    show wfosAux expected (f + 1) ⟨r0, false, [(tF, rM)], none⟩ now timeout =
        (true, tF)
    simp only [wfosAux]
    rw [if_neg htpos, hosw]
    simp [okAt, hM]
  | cons head tail ih =>
    intro fuel r0 now timeout tF hfuel hsp hpw hdl
    obtain ⟨ta, ra⟩ := head
    obtain ⟨f, rfl⟩ : ∃ f, fuel = f + 1 := ⟨fuel - 1, by omega⟩
    have hpw' : (ta :: (tail.map Prod.fst ++ [tF])).Pairwise (· < ·) := by
      have := hpw.of_cons
      simpa using this
    have hnowta : now < ta := List.rel_of_pairwise_cons hpw (by simp)
    have htatF : ta < tF := List.rel_of_pairwise_cons hpw' (by simp)
    have htpos : ¬ (timeout < 0) := by intro h; linarith
    have hmax : max timeout 0 = timeout := max_eq_left (by linarith)
    have htadl : ta ≤ now + timeout := by linarith
    have hosw : osWait ⟨r0, false, (ta, ra) :: (tail ++ [(tF, rM)]), none⟩
        now timeout = (true, ta, ⟨ra, true, tail ++ [(tF, rM)], none⟩) := by
      simp [osWait, hmax, htadl]
    have hra : ¬ (ra.state = expected) := hsp (ta, ra) (by simp)
    show wfosAux expected (f + 1)
        ⟨r0, false, (ta, ra) :: (tail ++ [(tF, rM)]), none⟩ now timeout = (true, tF)
    simp only [wfosAux]
    rw [if_neg htpos, hosw]
    have hstep := ih f ra ta (timeout - (ta - now)) tF
      (by simp only [List.length_cons] at hfuel ⊢; omega)
      (fun p hp => hsp p (by simp [hp]))
      hpw' (by linarith)
    simp [okAt, hra, hstep]

/-- Claim C4: `wait_for_operating_state(expected, timeout)` tolerates
spurious wakeups by re-verifying the record on each wakeup and continuing
against the original deadline (each retry's budget is the original timeout
minus the elapsed time, which in exact arithmetic equals a deadline computed
once up front): under `N` spurious notifications followed by a matching
update at `tF < now + timeout`, it returns success exactly at `tF`, not
after `N` full timeouts. -/
theorem wait_for_operating_state_deadline (expected : String)
    (spurious : List (ℚ × OSRecord)) (r0 rM : OSRecord) (now timeout tF : ℚ)
    (hM : rM.state = expected)
    (hsp : ∀ p ∈ spurious, p.2.state ≠ expected)
    (hpw : (now :: (spurious.map Prod.fst ++ [tF])).Pairwise (· < ·))
    (hdl : tF ≤ now + timeout) :
    wait_for_operating_state expected ⟨r0, false, spurious ++ [(tF, rM)], none⟩
      now timeout = (true, tF) := by
  unfold wait_for_operating_state
  exact wfosAux_spurious_trace expected rM hM spurious _ r0 now timeout tF
    (by simp) hsp hpw hdl

/-- Witness for claim C4: one spurious busy-toggling notification at time 2,
then a matching ENABLED update at time 3, within a 10 second timeout issued
at time 0: the wait returns success exactly at time 3. -/
theorem wait_for_operating_state_deadline_witness :
    wait_for_operating_state "ENABLED"
      ⟨⟨"DISABLED", false, false, 0⟩, false,
        [(2, ⟨"DISABLED", false, true, 2⟩), (3, ⟨"ENABLED", false, false, 3⟩)],
        none⟩ 0 10 = (true, 3) := by
  exact wait_for_operating_state_deadline "ENABLED"
    [(2, ⟨"DISABLED", false, true, 2⟩)]
    ⟨"DISABLED", false, false, 0⟩ ⟨"ENABLED", false, false, 3⟩ 0 10 3 rfl
    (by intro p hp; simp at hp; rw [hp]; decide)
    (by norm_num) (by norm_num)

/-- Claim C3 (code bug): a `wait_for_busy` call anchored to a `start_time`
in the future relative to the call enters the guard of line 313 and, before
any wait, evaluates the stamp comparison of line 314, which raises
`TypeError` (the message stamp is compared to an `rclpy.time.Time` without
the `from_msg` conversion used at line 293) — the call crashes instead of
performing the guarded stale-record check the claim describes.  Evaluated at
a concrete failing input: call at time 5 with `start_time = 10`. -/
theorem wait_for_busy_future_start_time_raises :
    wait_for_busy
      ⟨⟨"ENABLED", true, true, 0⟩, false, [(6, ⟨"ENABLED", true, false, 1⟩)], none⟩
      5 false (some 10) 30 = .error .TypeError := by
  unfold wait_for_busy
  norm_num [wfbAux, stampGtTime]

/-- Helper: a `wfosAux` waiter blocked with a clear event and no delivery
before the shutdown instant wakes at the shutdown instant (the event is set
by `__ros_shutdown`) and fails the `rclpy.ok()` check. -/
lemma wfosAux_shutdown_wakes (expected : String) (fuel : Nat) (s : OSState)
    (now timeout ts : ℚ)
    (hev : s.eventSet = false) (hsh : s.shutdown = some ts)
    (h0 : now ≤ ts) (h1 : ts ≤ now + timeout) (h2 : 0 ≤ timeout)
    (hdel : ∀ d ∈ s.deliveries, ts < d.1) :
    wfosAux expected (fuel + 1) s now timeout = (false, ts) := by
  obtain ⟨rec, ev, dels, sh⟩ := s
  simp only at hev hsh
  subst hev hsh
  have hmax : max timeout 0 = timeout := max_eq_left h2
  have ht : ¬ (timeout < 0) := by linarith
  simp only [wfosAux]
  rw [if_neg ht]
  cases dels with
  | nil =>
    rw [show osWait ⟨rec, false, [], some ts⟩ now timeout =
        (true, ts, ⟨rec, true, [], some ts⟩) by
      simp [osWait, hmax, h0, h1]]
    simp [okAt]
  | cons hd tl =>
    obtain ⟨ta, r⟩ := hd
    have hta : ts < ta := hdel (ta, r) (by simp)
    rw [show osWait ⟨rec, false, (ta, r) :: tl, some ts⟩ now timeout =
        (true, ts, ⟨rec, true, (ta, r) :: tl, some ts⟩) by
      simp [osWait, hmax, h0, h1, hta]]
    simp [okAt]

/-- Helper: same as `wfosAux_shutdown_wakes` for `wfbAux` with no anchored
start time (the blocking path clears the event itself). -/
lemma wfbAux_shutdown_wakes (busy : Bool) (fuel : Nat) (s : OSState)
    (now timeout ts : ℚ)
    (hsh : s.shutdown = some ts)
    (h0 : now ≤ ts) (h1 : ts ≤ now + timeout) (h2 : 0 ≤ timeout)
    (hdel : ∀ d ∈ s.deliveries, ts < d.1) :
    wfbAux busy (fuel + 1) s now none timeout = .ok (false, ts) := by
  obtain ⟨rec, ev, dels, sh⟩ := s
  simp only at hsh
  subst hsh
  have hmax : max timeout 0 = timeout := max_eq_left h2
  have ht : ¬ (timeout < 0) := by linarith
  simp only [wfbAux, Option.getD_none]
  rw [if_neg ht, if_neg (lt_irrefl now)]
  cases dels with
  | nil =>
    rw [show osWait ⟨rec, false, [], some ts⟩ now timeout =
        (true, ts, ⟨rec, true, [], some ts⟩) by
      simp [osWait, hmax, h0, h1]]
    simp [okAt]
  | cons hd tl =>
    obtain ⟨ta, r⟩ := hd
    have hta : ts < ta := hdel (ta, r) (by simp)
    rw [show osWait ⟨rec, false, (ta, r) :: tl, some ts⟩ now timeout =
        (true, ts, ⟨rec, true, (ta, r) :: tl, some ts⟩) by
      simp [osWait, hmax, h0, h1, hta]]
    simp [okAt]

/-- Claim C9 (amended): when the transport signals shutdown, waiters blocked
on the operating-state event (`wait_for_operating_state`, and
`wait_for_busy` with no anchored start time) are unblocked at the shutdown
instant and return failure via the `rclpy.ok()` check; but `ros_shutdown`
sets only the operating-state event, leaving every telemetry channel event
untouched, so a blocked freshness query is not unblocked and remains parked
for its full wait budget. -/
theorem shutdown_unblocks_state_waiters_only {α : Type} (expected : String)
    (s : OSState) (now timeout ts : ℚ) (busy : Bool)
    (hev : s.eventSet = false) (hsh : s.shutdown = some ts)
    (h0 : now ≤ ts) (h1 : ts ≤ now + timeout) (h2 : 0 ≤ timeout)
    (hdel : ∀ d ∈ s.deliveries, ts < d.1)
    (ei nowq : ℚ) (ch : Channel α) (age wait : Option ℚ)
    (hmiss : ¬ (age.getD ei ≠ 0 ∧ nowq - ch.data.stamp ≤ age.getD ei))
    (hW : 0 < wait.getD ei) (hnodel : ch.deliveries = []) :
    wait_for_operating_state expected s now timeout = (false, ts) ∧
    wait_for_busy s now busy none timeout = .ok (false, ts) ∧
    (∀ w : World, (ros_shutdown w).channelEventSet = w.channelEventSet) ∧
    wait_for_valid_data ei nowq ch age wait =
      (false, nowq + wait.getD ei, { ch with eventSet := false }) := by
  refine ⟨?_, ?_, ?_, ?_⟩
  · exact wfosAux_shutdown_wakes expected (s.deliveries.length + 1) s now
      timeout ts hev hsh h0 h1 h2 hdel
  · exact wfbAux_shutdown_wakes busy s.deliveries.length s now timeout ts
      hsh h0 h1 h2 hdel
  · intro w
    obtain ⟨reg, osev, chev⟩ := w
    cases reg <;> simp [ros_shutdown]
  · rw [wait_for_valid_data_eq, if_neg hmiss, if_pos (by exact ne_of_gt hW)]
    have hW0 : max (wait.getD ei) 0 = wait.getD ei := max_eq_left hW.le
    obtain ⟨d, ev, dl⟩ := ch
    simp only at hnodel
    subst hnodel
    simp [channelWait, hW0]

/-- Witness for the amended claim C9 at concrete values: shutdown at time 1
unblocks the state waiters (failure at time 1), while a cache-missing
freshness query issued at time 10 with a 1 second budget still returns only
at time 11. -/
theorem shutdown_unblocks_state_waiters_only_witness :
    wait_for_operating_state "ENABLED" ⟨initOperatingState, false, [], some 1⟩
      0 5 = (false, 1) ∧
    wait_for_busy ⟨initOperatingState, false, [], some 1⟩ 0 false none 5 =
      .ok (false, 1) ∧
    (∀ w : World, (ros_shutdown w).channelEventSet = w.channelEventSet) ∧
    wait_for_valid_data (1 : ℚ) 10 initSetpointChannel none none =
      (false, 10 + (1 : ℚ),
        { initSetpointChannel with eventSet := false }) := by
  exact shutdown_unblocks_state_waiters_only "ENABLED"
    ⟨initOperatingState, false, [], some 1⟩ 0 5 1 false rfl rfl
    (by norm_num) (by norm_num) (by norm_num) (by simp)
    1 10 initSetpointChannel none none
    (by norm_num [initSetpointChannel, initJointState]) (by norm_num) rfl

/-- Claim C9 is false as stated: `__ros_shutdown` sets only the
operating-state event, so a freshness query blocked on a telemetry channel is
not unblocked by shutdown: even though shutdown (at time 1) has set the
operating-state event of a registered instance, the channel's event is left
clear and the query issued at time 0 with a 5 second budget stays parked
until its full timeout, returning failure only at time 5. -/
theorem freshness_wait_parked_through_shutdown :
    (ros_shutdown ⟨true, false, false⟩).osEventSet = true ∧
    (ros_shutdown ⟨true, false, false⟩).channelEventSet = false ∧
    wait_for_valid_data (1 : ℚ) 0 initSetpointChannel (some 0) (some 5) =
      (false, 5, initSetpointChannel) ∧
    (1 : ℚ) < 5 := by
  refine ⟨rfl, rfl, ?_, by norm_num⟩
  rw [wait_for_valid_data_eq]
  norm_num [channelWait, initSetpointChannel, initJointState]

/-- State of a `utils` registry instance: the attribute names bound on the
target `class_instance`, the instance's bookkeeping lists
(`self.__subscribers`, `self.__publishers`, `self.__attributes` — the last
one is never appended to anywhere in the source), the node's live
subscription/publisher handles, and a fresh-handle counter. -/
structure UtilsState where
  instanceAttrs : List String
  subscribers : List Nat
  publishers : List Nat
  attributes : List String
  nodeSubs : List Nat
  nodePubs : List Nat
  nextHandle : Nat
deriving DecidableEq, Repr

/-- The `delattr` loop of `remove_all` (lines 155-158): deleting an absent
attribute raises `AttributeError`. -/
def delattrAll : List String → List String → Except CrtkError (List String)
  | [], attrs => .ok attrs
  | a :: rest, attrs =>
    if a ∈ attrs then delattrAll rest (attrs.erase a)
    else .error .AttributeError

/-- Embedding of `utils.remove_all` (lines 150-158): destroy every recorded
subscriber and publisher on the node (`rclpy`'s destroy is a no-op, not an
error, when the handle is no longer live), then delete every attribute name
recorded in `self.__attributes`.  The recorded lists themselves are not
cleared. -/
def remove_all (s : UtilsState) : Except CrtkError UtilsState :=
  let ns := s.subscribers.foldl List.erase s.nodeSubs
  let np := s.publishers.foldl List.erase s.nodePubs
  match delattrAll s.attributes s.instanceAttrs with
  | .error e => .error e
  | .ok attrs =>
    .ok { s with nodeSubs := ns, nodePubs := np, instanceAttrs := attrs }

/-- Embedding of `utils.__del__` (lines 137-138): the finalizer simply calls
`remove_all`. -/
def utils_del : UtilsState → Except CrtkError UtilsState := remove_all

/-- Embedding of `utils.add_setpoint_js` (lines 428-446): fail
(`DuplicateCapability`) before touching any state when the capability is
already bound; otherwise create the subscription on the node, record it in
`self.__subscribers`, and bind the four accessor attributes.  Returns the
outcome and the (possibly unchanged) state. -/
def add_setpoint_js (s : UtilsState) : Except CrtkError Unit × UtilsState :=
  if "setpoint_js" ∈ s.instanceAttrs then (.error .DuplicateCapability, s)
  else
    (.ok (), { s with
      subscribers := s.subscribers ++ [s.nextHandle],
      nodeSubs := s.nodeSubs ++ [s.nextHandle],
      instanceAttrs := s.instanceAttrs ++
        ["setpoint_js", "setpoint_jp", "setpoint_jv", "setpoint_jf"],
      nextHandle := s.nextHandle + 1 })

/-- Helper: erasing never introduces membership. -/
lemma not_mem_foldl_erase {a : Nat} :
    ∀ (xs l : List Nat), a ∉ l → a ∉ xs.foldl List.erase l
  | [], _, h => h
  | x :: xs, l, h =>
    not_mem_foldl_erase xs (l.erase x) (fun hm => h (List.mem_of_mem_erase hm))

/-- Helper: folding `List.erase` over a duplicate-free list removes every
element of `xs`. -/
lemma mem_not_mem_foldl_erase {a : Nat} :
    ∀ (xs l : List Nat), l.Nodup → a ∈ xs → a ∉ xs.foldl List.erase l := by
  intro xs
  induction xs with
  | nil => intro l _ ha; cases ha
  | cons x xs ih =>
    intro l hl ha
    rcases List.mem_cons.mp ha with rfl | ha'
    · exact not_mem_foldl_erase xs (l.erase a) (hl.not_mem_erase)
    · exact ih (l.erase x) (hl.erase x) ha'

/-- Helper: folding `List.erase` over a list disjoint from `xs` is the
identity. -/
lemma foldl_erase_of_disjoint :
    ∀ (xs l : List Nat), (∀ a ∈ xs, a ∉ l) → xs.foldl List.erase l = l
  | [], _, _ => rfl
  | x :: xs, l, h => by
    rw [List.foldl_cons, List.erase_of_not_mem (h x (by simp))]
    exact foldl_erase_of_disjoint xs l (fun a ha => h a (by simp [ha]))

/-- Claim C5: teardown of the registry is idempotent: `remove_all` succeeds,
releases every recorded subscriber and publisher from the node, and a second
call on the resulting instance (explicitly or through the finalizer
`utils_del`) is a no-op that raises no error.  The hypotheses reflect the
reachable states of the source: `self.__attributes` is never appended to, and
node handles are created fresh. -/
theorem remove_all_idempotent (s : UtilsState)
    (hattr : s.attributes = [])
    (hns : s.nodeSubs.Nodup) (hnp : s.nodePubs.Nodup) :
    ∃ s', remove_all s = .ok s' ∧
      remove_all s' = .ok s' ∧
      utils_del s' = .ok s' ∧
      (∀ h ∈ s.subscribers, h ∉ s'.nodeSubs) ∧
      (∀ h ∈ s.publishers, h ∉ s'.nodePubs) := by
  obtain ⟨attrs, subs, pubs, sattrs, ns, np, k⟩ := s
  simp only at hattr hns hnp
  subst hattr
  refine ⟨⟨attrs, subs, pubs, [], subs.foldl List.erase ns,
    pubs.foldl List.erase np, k⟩, ?_, ?_, ?_, ?_, ?_⟩
  · rfl
  · show remove_all _ = _
    unfold remove_all delattrAll
    simp only
    congr 2
    · exact foldl_erase_of_disjoint subs _
        (fun a ha => mem_not_mem_foldl_erase subs ns hns ha)
    · exact foldl_erase_of_disjoint pubs _
        (fun a ha => mem_not_mem_foldl_erase pubs np hnp ha)
  · show remove_all _ = _
    unfold remove_all delattrAll
    simp only
    congr 2
    · exact foldl_erase_of_disjoint subs _
        (fun a ha => mem_not_mem_foldl_erase subs ns hns ha)
    · exact foldl_erase_of_disjoint pubs _
        (fun a ha => mem_not_mem_foldl_erase pubs np hnp ha)
  · intro h hh
    exact mem_not_mem_foldl_erase subs ns hns hh
  · intro h hh
    exact mem_not_mem_foldl_erase pubs np hnp hh

/-- Witness for claim C5 on a concrete registry with two subscriptions and
one publisher. -/
theorem remove_all_idempotent_witness :
    ∃ s', remove_all ⟨["setpoint_js"], [1, 2], [3], [], [1, 2, 9], [3], 10⟩ =
        .ok s' ∧
      remove_all s' = .ok s' ∧
      utils_del s' = .ok s' ∧
      (∀ h ∈ [1, 2], h ∉ s'.nodeSubs) ∧
      (∀ h ∈ [3], h ∉ s'.nodePubs) :=
  remove_all_idempotent ⟨["setpoint_js"], [1, 2], [3], [], [1, 2, 9], [3], 10⟩
    rfl (by decide) (by decide)

/-- Claim C7: registering `setpoint_js` twice on one instance fails the
second registration with `DuplicateCapability` before any state is modified
(the returned state is exactly the state after the first registration), and
the first registration — its subscriber, on the instance and on the node, and
its bound accessor attributes — remains intact. -/
theorem add_setpoint_js_duplicate_rejected (s : UtilsState)
    (h : "setpoint_js" ∉ s.instanceAttrs) :
    ∃ s₁, add_setpoint_js s = (.ok (), s₁) ∧
      add_setpoint_js s₁ = (.error .DuplicateCapability, s₁) ∧
      s.nextHandle ∈ s₁.subscribers ∧
      s.nextHandle ∈ s₁.nodeSubs ∧
      "setpoint_js" ∈ s₁.instanceAttrs ∧
      "setpoint_jp" ∈ s₁.instanceAttrs ∧
      "setpoint_jv" ∈ s₁.instanceAttrs ∧
      "setpoint_jf" ∈ s₁.instanceAttrs := by
  refine ⟨{ s with
      subscribers := s.subscribers ++ [s.nextHandle],
      nodeSubs := s.nodeSubs ++ [s.nextHandle],
      instanceAttrs := s.instanceAttrs ++
        ["setpoint_js", "setpoint_jp", "setpoint_jv", "setpoint_jf"],
      nextHandle := s.nextHandle + 1 }, ?_, ?_, ?_, ?_, ?_, ?_, ?_, ?_⟩
  · unfold add_setpoint_js
    rw [if_neg h]
  · unfold add_setpoint_js
    rw [if_pos (by simp)]
  · simp
  · simp
  · simp
  · simp
  · simp
  · simp

/-- Witness for claim C7 from the empty capability set. -/
theorem add_setpoint_js_duplicate_rejected_witness :
    ∃ s₁, add_setpoint_js ⟨[], [], [], [], [], [], 0⟩ = (.ok (), s₁) ∧
      add_setpoint_js s₁ = (.error .DuplicateCapability, s₁) ∧
      (0 : Nat) ∈ s₁.subscribers ∧
      (0 : Nat) ∈ s₁.nodeSubs ∧
      "setpoint_js" ∈ s₁.instanceAttrs ∧
      "setpoint_jp" ∈ s₁.instanceAttrs ∧
      "setpoint_jv" ∈ s₁.instanceAttrs ∧
      "setpoint_jf" ∈ s₁.instanceAttrs :=
  add_setpoint_js_duplicate_rejected ⟨[], [], [], [], [], [], 0⟩ (by simp)

end Crtk
